import Mathlib

/-!
# Verification of the layout-editor backend (`src/main.py`)

Shallow embedding of the FastAPI backend in `src/main.py`: the chat response
validator (`chat_endpoint`, lines 183-224), the snapshot manager
(`snapshot_previous`, lines 50-65) and the layout CRUD + restore handlers
(`create_layout`, `update_layout`, `get_versions`, `restore_version`).

Modelling conventions:
* Mongo `ObjectId`s are modelled as `Nat`; the store generates them from a
  monotone counter (`DB.nextId`), which matches ObjectId uniqueness.
* `datetime.now(timezone.utc)` is modelled by a monotone counter `DB.clock`
  that ticks at every call, matching the strictly increasing wall clock of a
  sequential run.
* Python strings are Lean `String`s; `str.find`/`str.rfind` return `Int`
  with the `-1` sentinel exactly as in Python.
* `json.loads` is an external library call; the validator is parametrised
  over an abstract parse function `String → Option Json` (`none` models
  `json.JSONDecodeError`).
* The Mongo driver can raise on any call; the only call whose failure the
  claims discuss is `versions_col.delete_many` inside `snapshot_previous`,
  so the store environment `Env` carries a `deleteOk` flag injecting that
  failure.  An uncaught driver exception surfaces as an HTTP 500 response
  (`dbError`), and every handler returns the state as mutated so far,
  mirroring that earlier writes are not rolled back.
-/

namespace LayoutServer

/-- JSON values as produced by `json.loads`. -/
inductive Json where
  | null : Json
  | bool (b : Bool) : Json
  | num (n : Int) : Json
  | str (s : String) : Json
  | arr (elts : List Json) : Json
  | obj (fields : List (String × Json)) : Json

/-- `d[k]`-style lookup on a parsed JSON object (also `d.get(k)`:
`none` models Python `None` for a missing key). -/
def jsonGet (kvs : List (String × Json)) (key : String) : Option Json :=
  (kvs.find? (fun kv => kv.1 == key)).map (·.2)

/-- `k in d` membership test on a parsed JSON object. -/
def jsonHas (kvs : List (String × Json)) (key : String) : Bool :=
  kvs.any (fun kv => kv.1 == key)

/-- The typed rejections raised by `chat_endpoint` while validating the model
output, one constructor per `raise HTTPException` site (main.py 188-227). -/
inductive ChatErr where
  /-- 500 "Gemini did not return JSON" (brace heuristic failed). -/
  | notJson : ChatErr
  /-- 500 "Gemini returned invalid JSON" (`json.JSONDecodeError`). -/
  | invalidJson : ChatErr
  /-- 500 "Missing required fields in Gemini response". -/
  | missingFields : ChatErr
  /-- 500 "Field 'reason' must be a string". -/
  | reasonNotString : ChatErr
  /-- 500 "Field 'changes' must be an array". -/
  | changesNotArray : ChatErr
  /-- 500 "Each change must be an object". -/
  | changeNotObject : ChatErr
  /-- 500 f"Invalid change type: {action.get('type')}" — carries the
  offending `type` value (`none` = Python `None`). -/
  | invalidChangeType (t : Option Json) : ChatErr
  /-- 500 "Field 'theme' must be an object". -/
  | themeNotObject : ChatErr
  /-- 400 "Invalid theme.primaryColor". -/
  | invalidPrimaryColor : ChatErr
  /-- 400 "Invalid theme.spacing". -/
  | invalidSpacing : ChatErr
  /-- 400 "Invalid theme.mode". -/
  | invalidMode : ChatErr
  /-- 500 with `str(e)`: the generic `except Exception` path, taken when the
  parsed top-level JSON value is not a dict (subscripting it raises). -/
  | topLevelNotObject : ChatErr

/-- HTTP status class of each chat rejection, as raised in main.py. -/
def ChatErr.status : ChatErr → Nat
  | .invalidPrimaryColor => 400
  | .invalidSpacing => 400
  | .invalidMode => 400
  | _ => 500

/-- `allowed_types` (main.py 204): the set of accepted action `type`s. -/
def allowed_types : List String :=
  ["move", "remove", "add", "update_props", "toggle_visibility", "update_theme"]

/-- Is a `type` field value (as returned by `action.get("type")`) a member of
`allowed_types`?  Python `x in {set of str}` is false for `None` and for any
non-string value. -/
def typeAllowed : Option Json → Bool
  | some (.str s) => allowed_types.contains s
  | _ => false

/-- One element of the `changes` array is an object whose `type` is allowed. -/
def goodAction : Json → Bool
  | .obj kvs => typeAllowed (jsonGet kvs "type")
  | _ => false

/-- The `for action in data["changes"]` loop (main.py 205-209). -/
def checkChanges : List Json → Except ChatErr Unit
  | [] => .ok ()
  | a :: rest =>
    match a with
    | .obj kvs =>
      if typeAllowed (jsonGet kvs "type") then checkChanges rest
      else .error (.invalidChangeType (jsonGet kvs "type"))
    | _ => .error .changeNotObject

/-- Does `data.get(k)` yield Python `None`, i.e. JSON `null`? -/
def isJsonNull : Option Json → Bool
  | some .null => true
  | _ => false

/-- The theme block (main.py 213-222): optional, `None` tolerated, but a
present non-null theme must be an object with enumerated sub-fields. -/
def checkTheme (kvs : List (String × Json)) : Except ChatErr Unit :=
  if jsonHas kvs "theme" && !isJsonNull (jsonGet kvs "theme") then
    match jsonGet kvs "theme" with
    | some (.obj tkvs) =>
      if !(match jsonGet tkvs "primaryColor" with
           | some (.str s) =>
             ["indigo", "emerald", "rose", "amber", "cyan", "violet"].contains s
           | _ => false) then .error .invalidPrimaryColor
      else if !(match jsonGet tkvs "spacing" with
           | some (.str s) => ["compact", "comfortable"].contains s
           | _ => false) then .error .invalidSpacing
      else if !(match jsonGet tkvs "mode" with
           | some (.str s) => ["light", "dark"].contains s
           | _ => false) then .error .invalidMode
      else .ok ()
    | _ => .error .themeNotObject
  else .ok ()

/-- Field validation of the parsed model output (main.py 194-224).  A
non-dict top level makes the subsequent subscripting raise, caught by the
generic `except Exception` as a 500: `topLevelNotObject`. -/
def validate_data : Json → Except ChatErr Json
  | .obj kvs =>
    if !(jsonHas kvs "reason") || !(jsonHas kvs "changes") then
      .error .missingFields
    else if !(match jsonGet kvs "reason" with
              | some (.str _) => true | _ => false) then
      .error .reasonNotString
    else
      match jsonGet kvs "changes" with
      | some (.arr actions) =>
        match checkChanges actions with
        | .error e => .error e
        | .ok _ =>
          match checkTheme kvs with
          | .error e => .error e
          | .ok _ => .ok (.obj kvs)
      | _ => .error .changesNotArray
  | _ => .error .topLevelNotObject

/-! ### Python string primitives used by the brace heuristic -/

/-- Python whitespace stripped by `str.strip()`. -/
def pyIsSpace (c : Char) : Bool :=
  c == ' ' || c == '\t' || c == '\n' || c == '\r' ||
  c == Char.ofNat 11 || c == Char.ofNat 12

/-- `str.strip()`. -/
def pyStrip (s : String) : String :=
  ⟨((s.data.dropWhile pyIsSpace).reverse.dropWhile pyIsSpace).reverse⟩

/-- Helper for `pyFind`: index of the first occurrence, else `-1`. -/
def pyFindAux (c : Char) : Nat → List Char → Int
  | _, [] => -1
  | i, x :: xs => if x == c then (i : Int) else pyFindAux c (i + 1) xs

/-- `str.find(c)`: index of the first occurrence of `c`, else `-1`. -/
def pyFind (s : String) (c : Char) : Int :=
  pyFindAux c 0 s.data

/-- `str.rfind(c)`: index of the last occurrence of `c`, else `-1`. -/
def pyRfind (s : String) (c : Char) : Int :=
  match pyFindAux c 0 s.data.reverse with
  | -1 => -1
  | j => (s.data.length : Int) - 1 - j

/-- `s[a:b]` for `0 ≤ a ≤ b ≤ len(s)` (the only shape used here). -/
def pySlice (s : String) (a b : Int) : String :=
  ⟨(s.data.drop a.toNat).take (b.toNat - a.toNat)⟩

/-- The brace heuristic fails: `start == -1 or end == -1 or end <= start`
(main.py 186-188), applied to the stripped text. -/
def badBrace (t : String) : Bool :=
  pyFind t '{' == -1 || pyRfind t '}' == -1 || pyRfind t '}' ≤ pyFind t '{'

/-- `text[start:end+1]`: the substring between the first `{` and the last
`}`, inclusive (main.py 191). -/
def braceSlice (t : String) : String :=
  pySlice t (pyFind t '{') (pyRfind t '}' + 1)

/-- JSON-span extraction from the raw model text (main.py 183-191). -/
def extract_json (raw : String) : Except ChatErr String :=
  let text := pyStrip raw
  if badBrace text then .error .notJson else .ok (braceSlice text)

/-- The full response-validation pipeline of `chat_endpoint` applied to the
raw model text (main.py 183-224), parametrised over the external JSON
parser (`parse s = none` models `json.JSONDecodeError`). -/
def chat_validate (parse : String → Option Json) (raw : String) :
    Except ChatErr Json :=
  match extract_json raw with
  | .error e => .error e
  | .ok s =>
    match parse s with
    | none => .error .invalidJson
    | some d => validate_data d

/-! ### Data model and store state -/

/-- A row of `layout_versions` (main.py 54-59). -/
structure Version where
  id : Nat
  layoutId : Nat
  innerHTML : String
  reason : String
  createdAt : Nat

/-- A row of `layouts` (main.py 239-244). -/
structure Layout where
  id : Nat
  innerHTML : String
  theme : Option String
  createdAt : Nat
  updatedAt : Nat

/-- The document store plus the id generator and the wall clock. -/
structure DB where
  layouts : List Layout
  versions : List Version
  nextId : Nat
  clock : Nat

/-- An empty, freshly connected store. -/
def DB.init : DB := ⟨[], [], 0, 0⟩

/-- Store environment: whether `versions_col.delete_many` succeeds. -/
structure Env where
  deleteOk : Bool

/-- The environment in which every store call succeeds. -/
def envOk : Env := ⟨true⟩

/-- An HTTP error response (status, detail). -/
structure HErr where
  status : Nat
  detail : String

/-- An uncaught store exception surfaces as a 500 response. -/
def dbError : HErr := ⟨500, "Internal Server Error"⟩

/-- 404 raised when the layout id has no document (main.py 279, 308, 330). -/
def layoutNotFound : HErr := ⟨404, "Layout not found"⟩

/-- 404 raised on a missing or cross-layout version (main.py 334). -/
def versionNotFound : HErr := ⟨404, "Version not found for this layout"⟩

/-- 400 raised on an out-of-range `limit` (main.py 302). -/
def limitError : HErr := ⟨400, "limit must be 1..10"⟩

/-- 422 produced by FastAPI when pydantic body validation fails, before the
handler body runs. -/
def validationError : HErr := ⟨422, "request validation failed"⟩

/-! ### Request and response models (main.py 77-108) -/

/-- Allowed values of the `Theme` literal (main.py 74). -/
def themeOk : Option String → Bool
  | none => true
  | some t => ["Indigo", "Emerald", "Rose", "Cyan", "Amber", "Violet"].contains t

/-- Body of `POST /chat` (main.py 77-79). -/
structure ChatRequest where
  prompt : String
  innerHTML : String

/-- Pydantic field constraints of `ChatRequest`: `prompt` 1..50_000 chars,
`innerHTML` 1..1_000_000 chars. -/
def ChatRequest.valid (r : ChatRequest) : Bool :=
  1 ≤ r.prompt.length && r.prompt.length ≤ 50000 &&
  1 ≤ r.innerHTML.length && r.innerHTML.length ≤ 1000000

/-- Body of `POST /layouts` (main.py 82-84). -/
structure CreateLayoutRequest where
  innerHTML : String
  theme : Option String

/-- Pydantic constraints of `CreateLayoutRequest`: `innerHTML`
1..1_000_000 chars, `theme` an optional `Theme` literal. -/
def CreateLayoutRequest.valid (r : CreateLayoutRequest) : Bool :=
  1 ≤ r.innerHTML.length && r.innerHTML.length ≤ 1000000 && themeOk r.theme

/-- Body of `PATCH /layouts/{id}` (main.py 87-90); `reason` defaults to
`"manual_update"`. -/
structure UpdateLayoutRequest where
  innerHTML : String
  reason : String := "manual_update"
  theme : Option String

/-- Pydantic constraints of `UpdateLayoutRequest`: `innerHTML`
1..1_000_000 chars, `reason` at most 2000 chars (no minimum), `theme` an
optional `Theme` literal. -/
def UpdateLayoutRequest.valid (r : UpdateLayoutRequest) : Bool :=
  1 ≤ r.innerHTML.length && r.innerHTML.length ≤ 1000000 &&
  r.reason.length ≤ 2000 && themeOk r.theme

/-- `LayoutOut` response model (main.py 93-97). -/
structure LayoutOut where
  layoutId : Nat
  innerHTML : String
  theme : Option String
  updatedAt : Nat

/-- `VersionOut` summary (main.py 100-103): id, timestamp and reason only —
the model has no field for the stored content. -/
structure VersionOut where
  versionId : Nat
  createdAt : Nat
  reason : String

/-- `VersionsOut` response model (main.py 106-108). -/
structure VersionsOut where
  layoutId : Nat
  versions : List VersionOut

/-! ### Snapshot manager (main.py 50-65) -/

/-- Insert a version keeping the list sorted by `createdAt` descending. -/
def insertByCreatedDesc (v : Version) : List Version → List Version
  | [] => [v]
  | w :: ws =>
    if v.createdAt ≤ w.createdAt then w :: insertByCreatedDesc v ws
    else v :: w :: ws

/-- `.sort("createdAt", -1)`: newest first. -/
def sortByCreatedDesc : List Version → List Version
  | [] => []
  | v :: vs => insertByCreatedDesc v (sortByCreatedDesc vs)

/-- `versions_col.find({"layoutId": oid})`: the versions of one layout. -/
def layoutVersions (st : DB) (lid : Nat) : List Version :=
  st.versions.filter (fun v => v.layoutId == lid)

/-- Number of retained version rows for one layout. -/
def countV (st : DB) (lid : Nat) : Nat :=
  (layoutVersions st lid).length

/-- `snapshot_previous` (main.py 50-65): insert a snapshot timestamped now,
then delete the snapshots of that layout beyond the newest 4.  The deletion
is attempted only when `old_ids` is non-empty (`if old_ids:`); its failure
(`env.deleteOk = false`) propagates — the Python body has no `try`/`except` —
leaving the freshly inserted snapshot in place. -/
def snapshot_previous (env : Env) (st : DB) (layout_oid : Nat)
    (innerHTML reason : String) : Except HErr Unit × DB :=
  let st1 : DB := { st with
    versions := st.versions ++ [⟨st.nextId, layout_oid, innerHTML, reason, st.clock⟩],
    nextId := st.nextId + 1,
    clock := st.clock + 1 }
  let old_ids := ((sortByCreatedDesc (layoutVersions st1 layout_oid)).drop 4).map (·.id)
  if old_ids.isEmpty then (.ok (), st1)
  else if env.deleteOk then
    (.ok (), { st1 with versions := st1.versions.filter (fun v => !old_ids.contains v.id) })
  else (.error dbError, st1)

/-! ### Layout CRUD + restore handlers (main.py 236-350) -/

/-- `layouts_col.find_one({"_id": oid})`: first (only) match. -/
def findLayout (st : DB) (lid : Nat) : Option Layout :=
  st.layouts.find? (fun l => l.id == lid)

/-- `layouts_col.update_one({"_id": lid}, {"$set": ...})`: rewrite the first
matching document. -/
def updateOneLayout (lid : Nat) (f : Layout → Layout) : List Layout → List Layout
  | [] => []
  | l :: ls => if l.id == lid then f l :: ls else l :: updateOneLayout lid f ls

/-- `create_layout` (main.py 236-256): insert the layout, snapshot it with
reason `"initial_create"`, return the created view. -/
def create_layout (env : Env) (req : CreateLayoutRequest) (st : DB) :
    Except HErr LayoutOut × DB :=
  let now := st.clock
  let lid := st.nextId
  let st1 : DB := { st with
    layouts := st.layouts ++ [⟨lid, req.innerHTML, req.theme, now, now⟩],
    nextId := st.nextId + 1,
    clock := st.clock + 1 }
  match snapshot_previous env st1 lid req.innerHTML "initial_create" with
  | (.error e, st2) => (.error e, st2)
  | (.ok _, st2) => (.ok ⟨lid, req.innerHTML, req.theme, now⟩, st2)

/-- `update_layout` (main.py 274-296): 404 when absent; snapshot the
pre-update content under `req.reason or "manual_update"`; overwrite content
(and theme when supplied) and refresh `updatedAt`. -/
def update_layout (env : Env) (lid : Nat) (req : UpdateLayoutRequest) (st : DB) :
    Except HErr LayoutOut × DB :=
  match findLayout st lid with
  | none => (.error layoutNotFound, st)
  | some current =>
    match snapshot_previous env st lid current.innerHTML
        (if req.reason == "" then "manual_update" else req.reason) with
    | (.error e, st1) => (.error e, st1)
    | (.ok _, st1) =>
      let now := st1.clock
      let st2 : DB := { st1 with
        layouts := updateOneLayout lid (fun l =>
          { l with innerHTML := req.innerHTML, updatedAt := now,
                   theme := if req.theme.isSome then req.theme else l.theme }) st1.layouts,
        clock := st1.clock + 1 }
      (.ok ⟨lid, req.innerHTML, if req.theme.isSome then req.theme else current.theme, now⟩, st2)

/-- `VersionOut(versionId=..., createdAt=..., reason=...)` (main.py 314-318):
the summary drops the stored `innerHTML` (projection `{"innerHTML": 0}`). -/
def summarize (v : Version) : VersionOut := ⟨v.id, v.createdAt, v.reason⟩

/-- `get_versions` (main.py 299-320): `limit` defaults to 4 and must lie in
1..10; 404 when the layout is absent; otherwise the newest `limit` version
summaries, newest first. -/
def get_versions (st : DB) (lid : Nat) (limit : Int := 4) :
    Except HErr VersionsOut :=
  if limit < 1 || 10 < limit then .error limitError
  else
    match findLayout st lid with
    | none => .error layoutNotFound
    | some _ =>
      .ok ⟨lid, ((sortByCreatedDesc (layoutVersions st lid)).take limit.toNat).map summarize⟩

/-- `restore_version` (main.py 323-350): 404 when the layout is absent or
when no version has both the given id and this `layoutId`; snapshot the
current content under `"restore_snapshot"`; overwrite the content only
(theme untouched) and refresh `updatedAt`. -/
def restore_version (env : Env) (lid vid : Nat) (st : DB) :
    Except HErr LayoutOut × DB :=
  match findLayout st lid with
  | none => (.error layoutNotFound, st)
  | some current =>
    match st.versions.find? (fun v => v.id == vid && v.layoutId == lid) with
    | none => (.error versionNotFound, st)
    | some version =>
      match snapshot_previous env st lid current.innerHTML "restore_snapshot" with
      | (.error e, st1) => (.error e, st1)
      | (.ok _, st1) =>
        let now := st1.clock
        let st2 : DB := { st1 with
          layouts := updateOneLayout lid (fun l =>
            { l with innerHTML := version.innerHTML, updatedAt := now }) st1.layouts,
          clock := st1.clock + 1 }
        (.ok ⟨lid, version.innerHTML, current.theme, now⟩, st2)

/-! ### FastAPI request validation wrappers

Pydantic validates the body before the handler body runs; a violation is a
422 client error and the handler (hence the store) is never touched. -/

/-- `POST /layouts` as seen by the client: body validation, then handler. -/
def create_layout_endpoint (env : Env) (req : CreateLayoutRequest) (st : DB) :
    Except HErr LayoutOut × DB :=
  if req.valid then create_layout env req st else (.error validationError, st)

/-- `PATCH /layouts/{id}` as seen by the client. -/
def update_layout_endpoint (env : Env) (lid : Nat) (req : UpdateLayoutRequest)
    (st : DB) : Except HErr LayoutOut × DB :=
  if req.valid then update_layout env lid req st else (.error validationError, st)

/-- `POST /chat` request gate: the body must satisfy `ChatRequest.valid`
before any handler logic (the LLM call and response validation) runs. -/
def chat_endpoint_accepts (req : ChatRequest) : Bool :=
  req.valid

/-! ### Sequences of mutating operations (for the retention invariant) -/

/-- One mutating operation against a fixed layout. -/
inductive Op where
  | update (req : UpdateLayoutRequest) : Op
  | restore (vid : Nat) : Op

/-- Run one operation. -/
def runOp (env : Env) (lid : Nat) (op : Op) (st : DB) :
    Except HErr LayoutOut × DB :=
  match op with
  | .update req => update_layout env lid req st
  | .restore vid => restore_version env lid vid st

/-- Run a sequence of operations; the `Bool` records whether all succeeded. -/
def runOps (env : Env) (lid : Nat) : List Op → DB → Bool × DB
  | [], st => (true, st)
  | op :: ops, st =>
    match runOp env lid op st with
    | (.ok _, st1) => runOps env lid ops st1
    | (.error _, st1) => (false, st1)

/-- Store well-formedness: ids issued so far are below `nextId` and version
ids are pairwise distinct.  Holds of `DB.init` and is preserved by every
handler. -/
def DB.wf (st : DB) : Prop :=
  (st.versions.map (·.id)).Nodup ∧
  (∀ v ∈ st.versions, v.id < st.nextId) ∧
  (∀ v ∈ st.versions, v.layoutId < st.nextId) ∧
  (∀ l ∈ st.layouts, l.id < st.nextId)

/-! ## Helper lemmas -/

theorem checkChanges_append_bad (pre post : List Json) (kvs : List (String × Json))
    (hpre : pre.all goodAction = true)
    (hbad : typeAllowed (jsonGet kvs "type") = false) :
    checkChanges (pre ++ Json.obj kvs :: post) =
      .error (.invalidChangeType (jsonGet kvs "type")) := by
  induction pre with
  | nil => simp [checkChanges, hbad]
  | cons a pre ih =>
    simp only [List.all_cons, Bool.and_eq_true] at hpre
    obtain ⟨ha, hpre⟩ := hpre
    cases a with
    | obj akvs =>
      simp only [goodAction] at ha
      simpa [checkChanges, ha] using ih hpre
    | null => simp [goodAction] at ha
    | bool b => simp [goodAction] at ha
    | num n => simp [goodAction] at ha
    | str s => simp [goodAction] at ha
    | arr l => simp [goodAction] at ha

theorem checkChanges_ok_all (acts : List Json) (h : checkChanges acts = .ok ()) :
    acts.all goodAction = true := by
  induction acts with
  | nil => rfl
  | cons a acts ih =>
    cases a with
    | obj akvs =>
      by_cases hta : typeAllowed (jsonGet akvs "type") = true
      · simp only [checkChanges, hta, if_true] at h
        simp [List.all_cons, goodAction, hta, ih h]
      · simp [checkChanges, hta] at h
    | null => simp [checkChanges] at h
    | bool b => simp [checkChanges] at h
    | num n => simp [checkChanges] at h
    | str s => simp [checkChanges] at h
    | arr l => simp [checkChanges] at h

/-- `validate_data` on a well-shaped top level reduces to the action loop. -/
theorem validate_data_reason_changes (rsn : String) (acts : List Json) :
    validate_data (.obj [("reason", .str rsn), ("changes", .arr acts)]) =
      match checkChanges acts with
      | .error e => .error e
      | .ok _ => .ok (.obj [("reason", .str rsn), ("changes", .arr acts)]) := by
  simp only [validate_data, jsonHas, jsonGet, checkTheme]
  rfl

/-! ## C9 — brace heuristic and JSON-parse failure handling -/

/-- Parse function used by witnesses: accepts exactly the empty object. -/
def wParse : String → Option Json :=
  fun s => if s == "{}" then some (.obj []) else none

/-- C9: the validator trims the raw text, locates the first `{` and the last
`}`, and fails with the malformed-output rejection (500, "Gemini did not
return JSON") when either is absent or the first is not strictly before the
last; otherwise it parses the inclusive substring as JSON, a parse failure
being the malformed-output rejection (500, "Gemini returned invalid JSON")
rather than a crash, and a successful parse flowing into field validation. -/
theorem chat_brace_heuristic_and_parse (parse : String → Option Json)
    (raw1 raw2 raw3 : String) (d : Json)
    (h1 : badBrace (pyStrip raw1) = true)
    (h2a : badBrace (pyStrip raw2) = false)
    (h2b : parse (braceSlice (pyStrip raw2)) = none)
    (h3a : badBrace (pyStrip raw3) = false)
    (h3b : parse (braceSlice (pyStrip raw3)) = some d) :
    chat_validate parse raw1 = .error .notJson ∧
    chat_validate parse raw2 = .error .invalidJson ∧
    chat_validate parse raw3 = validate_data d ∧
    ChatErr.status .notJson = 500 ∧ ChatErr.status .invalidJson = 500 := by
  refine ⟨?_, ?_, ?_, rfl, rfl⟩
  · simp [chat_validate, extract_json, h1]
  · simp [chat_validate, extract_json, h2a, h2b]
  · simp [chat_validate, extract_json, h3a, h3b]

/-- Witness for C9 at concrete raw texts. -/
theorem chat_brace_heuristic_and_parse_witness :
    chat_validate wParse "no json at all" = .error .notJson ∧
    chat_validate wParse " {a} " = .error .invalidJson ∧
    chat_validate wParse " x{}y " = validate_data (.obj []) ∧
    ChatErr.status .notJson = 500 ∧ ChatErr.status .invalidJson = 500 :=
  chat_brace_heuristic_and_parse wParse "no json at all" " {a} " " x{}y "
    (.obj []) rfl rfl rfl rfl rfl

/-! ## C2 — the action-type enumeration is six-membered, not five -/

/-- A parsed response whose single change has `type: "add"`. -/
def addData : Json :=
  .obj [("reason", .str "ok"), ("changes", .arr [.obj [("type", .str "add")]])]

/-- C2 counterexample: the validator accepts a change of type `"add"`,
which is not a member of the five-kind enumeration the claim fixes
(`allowed_types` in main.py 204 has six members, including `"add"`). -/
theorem chat_action_five_kinds_cex :
    validate_data addData = .ok addData ∧
    "add" ∉ (["move", "remove", "toggle_visibility", "update_props",
              "update_theme"] : List String) :=
  ⟨rfl, by decide⟩

/-- C2 amended: an element of `changes` is accepted only if it is an object
whose `type` is a member of the six-kind set `allowed_types`
(move/remove/add/update_props/toggle_visibility/update_theme); the first
element that is an object with any other `type` value is rejected with the
error naming that offending value. -/
theorem chat_action_type_enforced (rsn : String)
    (pre post acts2 : List Json) (kvs : List (String × Json)) (d2 : Json)
    (hpre : pre.all goodAction = true)
    (hbad : typeAllowed (jsonGet kvs "type") = false)
    (hok : validate_data (.obj [("reason", .str rsn), ("changes", .arr acts2)])
            = .ok d2) :
    validate_data (.obj [("reason", .str rsn),
        ("changes", .arr (pre ++ Json.obj kvs :: post))]) =
      .error (.invalidChangeType (jsonGet kvs "type")) ∧
    acts2.all goodAction = true := by
  constructor
  · rw [validate_data_reason_changes, checkChanges_append_bad pre post kvs hpre hbad]
  · rw [validate_data_reason_changes] at hok
    rcases hc : checkChanges acts2 with e | u
    · rw [hc] at hok; cases hok
    · exact checkChanges_ok_all acts2 (by rw [hc])

/-- Witness for C2's amended theorem. -/
theorem chat_action_type_enforced_witness :
    validate_data (.obj [("reason", .str "r"),
        ("changes", .arr ([.obj [("type", .str "move")]] ++
          Json.obj [("type", .str "bogus")] :: []))]) =
      .error (.invalidChangeType (some (.str "bogus"))) ∧
    ([.obj [("type", .str "remove")]] : List Json).all goodAction = true :=
  chat_action_type_enforced "r" [.obj [("type", .str "move")]] []
    [.obj [("type", .str "remove")]] [("type", .str "bogus")]
    (.obj [("reason", .str "r"), ("changes", .arr [.obj [("type", .str "remove")]])])
    rfl rfl rfl

/-! ## C6 — no size check on the model output -/

/-- A string of 1,000,001 characters. -/
def bigStr : String := ⟨List.replicate 1000001 'a'⟩

/-- A parsed response whose `changes` payload exceeds 1,000,000 characters. -/
def bigData : Json :=
  .obj [("reason", .str "r"),
        ("changes", .arr [.obj [("type", .str "update_props"),
                                ("props", .obj [("text", .str bigStr)])]])]

/-- C6 counterexample: the response validator applies no maximum-size check —
a parsed response whose `changes` payload contains a 1,000,001-character
string is accepted, not rejected. -/
theorem chat_no_response_size_cap_cex :
    validate_data bigData = .ok bigData ∧ 1000000 < bigStr.length := by
  refine ⟨rfl, ?_⟩
  show 1000000 < (List.replicate 1000001 'a').length
  rw [List.length_replicate]
  norm_num

/-- C6 amended: the 1,000,000-character cap is enforced on the chat
*request* (`ChatRequest.innerHTML`, a pydantic client-side validation
error), not on the model output; the response validator performs no size
check. -/
theorem chat_request_size_cap (p ih : String) (h : 1000000 < ih.length) :
    ChatRequest.valid ⟨p, ih⟩ = false := by
  simp only [ChatRequest.valid, Bool.and_eq_false_imp, Bool.and_eq_false_iff,
    decide_eq_false_iff_not, not_le]
  omega

/-- Witness for C6's amended theorem at the 1,000,001-character string. -/
theorem chat_request_size_cap_witness :
    1000000 < bigStr.length ∧ ChatRequest.valid ⟨"x", bigStr⟩ = false := by
  have h : 1000000 < bigStr.length := by
    show 1000000 < (List.replicate 1000001 'a').length
    rw [List.length_replicate]
    norm_num
  exact ⟨h, chat_request_size_cap "x" bigStr h⟩

/-! ## C10 — implicit minimum length 1 on content and prompt -/

/-- C10: create, update and chat all require at least one character in the
content (and chat in the prompt): an empty string is rejected by pydantic
body validation as a 422 client error before the handler body runs, so the
store state is returned untouched. -/
theorem min_length_one_enforced (env : Env) (st : DB) (lid : Nat)
    (p ih rsn : String) (cth uth : Option String) :
    create_layout_endpoint env ⟨"", cth⟩ st = (.error validationError, st) ∧
    update_layout_endpoint env lid ⟨"", rsn, uth⟩ st = (.error validationError, st) ∧
    chat_endpoint_accepts ⟨"", ih⟩ = false ∧
    chat_endpoint_accepts ⟨p, ""⟩ = false ∧
    validationError.status = 422 := by
  refine ⟨?_, ?_, ?_, ?_, rfl⟩
  · simp [create_layout_endpoint, CreateLayoutRequest.valid]
  · simp [update_layout_endpoint, UpdateLayoutRequest.valid]
  · simp [chat_endpoint_accepts, ChatRequest.valid]
  · simp [chat_endpoint_accepts, ChatRequest.valid]

/-! ## Sorting and store helper lemmas -/

theorem insertByCreatedDesc_perm (v : Version) (l : List Version) :
    (insertByCreatedDesc v l).Perm (v :: l) := by
  induction l with
  | nil => exact List.Perm.refl _
  | cons w ws ih =>
    simp only [insertByCreatedDesc]
    split
    · exact (ih.cons w).trans (List.Perm.swap v w ws)
    · exact List.Perm.refl _

theorem sortByCreatedDesc_perm (l : List Version) :
    (sortByCreatedDesc l).Perm l := by
  induction l with
  | nil => exact List.Perm.refl _
  | cons v vs ih =>
    exact (insertByCreatedDesc_perm v (sortByCreatedDesc vs)).trans (ih.cons v)

theorem sortByCreatedDesc_length (l : List Version) :
    (sortByCreatedDesc l).length = l.length :=
  (sortByCreatedDesc_perm l).length_eq

theorem snapshot_previous_layouts (env : Env) (st : DB) (lid : Nat)
    (h r : String) : (snapshot_previous env st lid h r).2.layouts = st.layouts := by
  simp only [snapshot_previous]
  split
  · rfl
  · split <;> rfl

theorem layoutVersions_insert_self (st : DB) (lid : Nat) (v : Version)
    (hv : v.layoutId = lid) :
    (st.versions ++ [v]).filter (fun w => w.layoutId == lid) =
      layoutVersions st lid ++ [v] := by
  simp [layoutVersions, List.filter_append, List.filter, hv]

theorem find?_updateOneLayout (lid : Nat) (f : Layout → Layout)
    (hf : ∀ l, (f l).id = l.id) (ls : List Layout) :
    (updateOneLayout lid f ls).find? (fun l => l.id == lid) =
      (ls.find? (fun l => l.id == lid)).map f := by
  induction ls with
  | nil => rfl
  | cons l ls ih =>
    by_cases hl : (l.id == lid) = true
    · have hfl : ((f l).id == lid) = true := by rw [hf l]; exact hl
      simp [updateOneLayout, hl, List.find?_cons, hfl]
    · simp only [Bool.not_eq_true] at hl
      have hfl : ((f l).id == lid) = false := by rw [hf l]; exact hl
      simp [updateOneLayout, hl, List.find?_cons, hfl, ih]

/-! ## C4 — cross-layout restore is rejected with 404 and no mutation -/

/-- C4: when the layout exists and some version has the requested id but
every version with that id belongs to a different layout, `restore_version`
fails with the 404 "Version not found for this layout" and returns the store
untouched: no snapshot is written and no layout is mutated. -/
theorem restore_cross_layout_rejected (env : Env) (lid vid : Nat) (st : DB)
    (w : Version)
    (hlayout : (findLayout st lid).isSome = true)
    (_hw : w ∈ st.versions) (_hwid : w.id = vid)
    (hcross : ∀ v ∈ st.versions, v.id = vid → v.layoutId ≠ lid) :
    restore_version env lid vid st = (.error versionNotFound, st) := by
  obtain ⟨cur, hcur⟩ := Option.isSome_iff_exists.mp hlayout
  have hnone : st.versions.find? (fun v => v.id == vid && v.layoutId == lid) = none := by
    rw [List.find?_eq_none]
    intro v hv
    simp only [Bool.and_eq_true, beq_iff_eq, not_and]
    exact hcross v hv
  simp [restore_version, hcur, hnone]

/-- Concrete store for the C4 witness: version 2 belongs to layout 1,
restore is attempted against layout 0. -/
def stCross : DB :=
  ⟨[⟨0, "A", none, 0, 0⟩, ⟨1, "B", none, 0, 0⟩],
   [⟨2, 1, "vb", "initial_create", 1⟩], 3, 2⟩

/-- Witness for C4. -/
theorem restore_cross_layout_rejected_witness :
    restore_version envOk 0 2 stCross = (.error versionNotFound, stCross) :=
  restore_cross_layout_rejected envOk 0 2 stCross
    ⟨2, 1, "vb", "initial_create", 1⟩ rfl (by simp [stCross]) rfl (by decide)

/-! ## C8 — restore leaves the theme unchanged -/

/-- C8: a successful restore overwrites only the content and the update
timestamp: the stored layout keeps its theme (and creation time), and the
response carries the pre-restore theme. -/
theorem restore_preserves_theme (env : Env) (lid vid : Nat) (st : DB)
    (cur : Layout)
    (hcur : findLayout st lid = some cur)
    (hok : (restore_version env lid vid st).1.isOk = true) :
    (restore_version env lid vid st).1.map (·.theme) = .ok cur.theme ∧
    (findLayout (restore_version env lid vid st).2 lid).map (·.theme)
      = some cur.theme ∧
    (findLayout (restore_version env lid vid st).2 lid).map (·.createdAt)
      = some cur.createdAt := by
  rcases hv : st.versions.find? (fun v => v.id == vid && v.layoutId == lid) with _ | version
  · simp [restore_version, hcur, hv, Except.isOk, Except.toBool] at hok
  · rcases hs : snapshot_previous env st lid cur.innerHTML "restore_snapshot" with ⟨res, st1⟩
    have hl1 : st1.layouts = st.layouts := by
      have := snapshot_previous_layouts env st lid cur.innerHTML "restore_snapshot"
      rwa [hs] at this
    cases res with
    | error e =>
      simp [restore_version, hcur, hv, hs, Except.isOk, Except.toBool] at hok
    | ok u =>
      have hcur' : st.layouts.find? (fun l => l.id == lid) = some cur := hcur
      have hupd := find?_updateOneLayout lid
        (fun l => ({ l with innerHTML := version.innerHTML,
                            updatedAt := st1.clock } : Layout))
        (fun l => rfl) st.layouts
      refine ⟨?_, ?_, ?_⟩ <;>
        simp [restore_version, hcur, hv, hs, Except.map, findLayout, hl1,
          hupd, hcur']

/-- Concrete store for the C8 witness: layout 0 has theme "Rose" and one
snapshot to restore. -/
def stTheme : DB :=
  ⟨[⟨0, "cur", some "Rose", 0, 0⟩], [⟨1, 0, "old", "initial_create", 1⟩], 2, 2⟩

/-- Witness for C8. -/
theorem restore_preserves_theme_witness :
    (restore_version envOk 0 1 stTheme).1.map (·.theme) = .ok (some "Rose") ∧
    (findLayout (restore_version envOk 0 1 stTheme).2 0).map (·.theme)
      = some (some "Rose") ∧
    (findLayout (restore_version envOk 0 1 stTheme).2 0).map (·.createdAt)
      = some 0 :=
  restore_preserves_theme envOk 0 1 stTheme ⟨0, "cur", some "Rose", 0, 0⟩ rfl rfl

/-! ## C5 — a pruning-deletion failure is NOT suppressed -/

/-- When the layout already holds at least 4 snapshots, the pruning deletion
is attempted; if it fails, `snapshot_previous` propagates the error (its body
has no `try`/`except`), leaving the freshly inserted snapshot behind and the
layouts collection untouched. -/
theorem snapshot_prune_fail (st : DB) (lid : Nat) (h r : String)
    (hcnt : 4 ≤ countV st lid) :
    snapshot_previous ⟨false⟩ st lid h r =
      (.error dbError,
       { st with versions := st.versions ++ [⟨st.nextId, lid, h, r, st.clock⟩],
                 nextId := st.nextId + 1, clock := st.clock + 1 }) := by
  have hfil : ({ st with
      versions := st.versions ++ [⟨st.nextId, lid, h, r, st.clock⟩],
      nextId := st.nextId + 1, clock := st.clock + 1 } : DB).versions.filter
        (fun v => v.layoutId == lid) = layoutVersions st lid ++
          [⟨st.nextId, lid, h, r, st.clock⟩] :=
    layoutVersions_insert_self st lid _ rfl
  have hlen : (sortByCreatedDesc (layoutVersions st lid ++
      [⟨st.nextId, lid, h, r, st.clock⟩])).length = countV st lid + 1 := by
    rw [sortByCreatedDesc_length, List.length_append]
    rfl
  have hne : ((sortByCreatedDesc (layoutVersions st lid ++
      [⟨st.nextId, lid, h, r, st.clock⟩])).drop 4).map (·.id) ≠ [] := by
    intro heq
    have := congrArg List.length heq
    rw [List.length_map, List.length_drop, hlen] at this
    simp at this
    omega
  simp only [snapshot_previous, layoutVersions, hfil]
  rw [if_neg (by simpa [List.isEmpty_iff] using hne)]
  rfl

/-- C5 counterexample: on a layout already holding 4 snapshots, an update
whose pruning deletion fails does NOT complete — the error propagates (HTTP
500) and the layout's content is left unchanged (the mutation is aborted,
not completed). -/
def stFull : DB :=
  ⟨[⟨0, "cur", none, 0, 0⟩],
   [⟨1, 0, "a", "r", 1⟩, ⟨2, 0, "b", "r", 2⟩, ⟨3, 0, "c", "r", 3⟩,
    ⟨4, 0, "d", "r", 4⟩], 5, 5⟩

/-- C5 counterexample theorem (see `stFull`): the triggering mutation does
not complete and the pruning error is not suppressed. -/
theorem prune_failure_not_suppressed_cex :
    (update_layout ⟨false⟩ 0 ⟨"new", "edit", none⟩ stFull).1 = .error dbError ∧
    ((update_layout ⟨false⟩ 0 ⟨"new", "edit", none⟩ stFull).2.layouts.find?
        (fun l => l.id == 0)).map (·.innerHTML) = some "cur" := by
  constructor <;> rfl

/-- C5 amended: a failure of the snapshot-pruning deletion step IS fatal to
the triggering mutation — `snapshot_previous` has no error handling, so for
update and restore the exception propagates as a 500 response and the layout
document is never overwritten (only the freshly inserted snapshot remains). -/
theorem prune_failure_propagates (lid vid : Nat) (req : UpdateLayoutRequest)
    (st : DB) (cur : Layout) (ver : Version)
    (hcur : findLayout st lid = some cur)
    (hcnt : 4 ≤ countV st lid)
    (hver : st.versions.find? (fun v => v.id == vid && v.layoutId == lid)
              = some ver) :
    (update_layout ⟨false⟩ lid req st).1 = .error dbError ∧
    (update_layout ⟨false⟩ lid req st).2.layouts = st.layouts ∧
    (restore_version ⟨false⟩ lid vid st).1 = .error dbError ∧
    (restore_version ⟨false⟩ lid vid st).2.layouts = st.layouts := by
  refine ⟨?_, ?_, ?_, ?_⟩ <;>
    simp [update_layout, restore_version, hcur, hver,
      snapshot_prune_fail st lid _ _ hcnt]

/-- Witness for C5's amended theorem at the concrete full store. -/
theorem prune_failure_propagates_witness :
    (update_layout ⟨false⟩ 0 ⟨"n", "e", none⟩ stFull).1 = .error dbError ∧
    (update_layout ⟨false⟩ 0 ⟨"n", "e", none⟩ stFull).2.layouts = stFull.layouts ∧
    (restore_version ⟨false⟩ 0 1 stFull).1 = .error dbError ∧
    (restore_version ⟨false⟩ 0 1 stFull).2.layouts = stFull.layouts :=
  prune_failure_propagates 0 1 ⟨"n", "e", none⟩ stFull ⟨0, "cur", none, 0, 0⟩
    ⟨1, 0, "a", "r", 1⟩ rfl (by decide) rfl

/-! ## C3 — round-trip restore recovers the original content -/

/-- C3: for any contents `C` and `C2`, creating a layout with content `C`,
updating it to `C2`, then restoring the version that holds `C` (the
`initial_create` snapshot, id 1) leaves the stored content equal to `C`, and
the restore response also carries content `C`. -/
theorem round_trip_restore (C C2 : String) (th : Option String) :
    ((restore_version envOk 0 1
        (update_layout envOk 0 ⟨C2, "edit", none⟩
          (create_layout envOk ⟨C, th⟩ DB.init).2).2).1).map (·.innerHTML)
      = .ok C ∧
    (((restore_version envOk 0 1
        (update_layout envOk 0 ⟨C2, "edit", none⟩
          (create_layout envOk ⟨C, th⟩ DB.init).2).2).2).layouts.find?
        (fun l => l.id == 0)).map (·.innerHTML) = some C := by
  constructor <;> rfl

/-! ## C7 — version listing: limit bounds, default, order, summaries -/

theorem pairwise_insertByCreatedDesc (v : Version) (l : List Version)
    (h : List.Pairwise (fun a b => b.createdAt ≤ a.createdAt) l) :
    List.Pairwise (fun a b => b.createdAt ≤ a.createdAt)
      (insertByCreatedDesc v l) := by
  induction l with
  | nil => simp [insertByCreatedDesc]
  | cons w ws ih =>
    rw [List.pairwise_cons] at h
    obtain ⟨hw, hws⟩ := h
    simp only [insertByCreatedDesc]
    split
    · rename_i hle
      refine List.Pairwise.cons ?_ (ih hws)
      intro x hx
      rcases List.mem_cons.mp ((insertByCreatedDesc_perm v ws).mem_iff.mp hx) with
        rfl | hx'
      · exact hle
      · exact hw x hx'
    · rename_i hgt
      push_neg at hgt
      refine List.Pairwise.cons ?_ (List.Pairwise.cons hw hws)
      intro x hx
      rcases List.mem_cons.mp hx with rfl | hx'
      · exact le_of_lt hgt
      · exact le_trans (hw x hx') (le_of_lt hgt)

theorem sortByCreatedDesc_sorted (l : List Version) :
    List.Pairwise (fun a b => b.createdAt ≤ a.createdAt) (sortByCreatedDesc l) := by
  induction l with
  | nil => simp [sortByCreatedDesc]
  | cons v vs ih => exact pairwise_insertByCreatedDesc v _ ih

/-- C7: for an existing layout, the listing rejects `limit = 0` and
`limit = 11` with the 400 "limit must be 1..10" client error, defaults the
limit to 4, and for any limit in 1..10 returns the newest `limit` version
summaries (id, timestamp, reason via `summarize` — `VersionOut` has no
content field), newest-first by creation time; the result length is
`min limit (number of stored versions)`, so fewer stored versions are all
returned. -/
theorem get_versions_spec (st : DB) (lid : Nat) (limit : Int) (cur : Layout)
    (hcur : findLayout st lid = some cur) (h1 : 1 ≤ limit) (h2 : limit ≤ 10) :
    get_versions st lid 0 = .error limitError ∧
    get_versions st lid 11 = .error limitError ∧
    limitError.status = 400 ∧
    get_versions st lid = get_versions st lid 4 ∧
    get_versions st lid limit =
      .ok ⟨lid, ((sortByCreatedDesc (layoutVersions st lid)).take
        limit.toNat).map summarize⟩ ∧
    (((sortByCreatedDesc (layoutVersions st lid)).take limit.toNat).map
        summarize).length = min limit.toNat (countV st lid) ∧
    List.Pairwise (fun a b => b.createdAt ≤ a.createdAt)
      (((sortByCreatedDesc (layoutVersions st lid)).take limit.toNat).map
        summarize) := by
  refine ⟨rfl, rfl, rfl, rfl, ?_, ?_, ?_⟩
  · have hb : (decide (limit < 1) || decide (10 < limit)) = false := by
      simp only [Bool.or_eq_false_iff, decide_eq_false_iff_not, not_lt]
      omega
    simp [get_versions, hb, hcur]
  · rw [List.length_map, List.length_take, sortByCreatedDesc_length]
    rfl
  · exact List.pairwise_map.mpr
      (List.Pairwise.sublist (List.take_sublist _ _) (sortByCreatedDesc_sorted _))

/-- Concrete store for the C7 witness: one layout with 2 stored versions. -/
def stTwo : DB :=
  ⟨[⟨0, "x", none, 0, 0⟩],
   [⟨1, 0, "a", "initial_create", 1⟩, ⟨2, 0, "b", "manual_update", 2⟩], 3, 3⟩

/-- Witness for C7 at `limit = 4` with only 2 stored versions. -/
theorem get_versions_spec_witness :
    get_versions stTwo 0 0 = .error limitError ∧
    get_versions stTwo 0 11 = .error limitError ∧
    limitError.status = 400 ∧
    get_versions stTwo 0 = get_versions stTwo 0 4 ∧
    get_versions stTwo 0 4 =
      .ok ⟨0, ((sortByCreatedDesc (layoutVersions stTwo 0)).take
        (4 : Int).toNat).map summarize⟩ ∧
    (((sortByCreatedDesc (layoutVersions stTwo 0)).take (4 : Int).toNat).map
        summarize).length = min (4 : Int).toNat (countV stTwo 0) ∧
    List.Pairwise (fun a b => b.createdAt ≤ a.createdAt)
      (((sortByCreatedDesc (layoutVersions stTwo 0)).take (4 : Int).toNat).map
        summarize) :=
  get_versions_spec stTwo 0 4 ⟨0, "x", none, 0, 0⟩ rfl (by decide) (by decide)


/-! ## C1 — bounded retention: the `min (N+1) 4` law -/

theorem ids_nodup_filter_append_fresh (st : DB) (lid : Nat) (h r : String)
    (hnd : (st.versions.map (·.id)).Nodup)
    (hfresh : ∀ v ∈ st.versions, v.id < st.nextId) :
    ((layoutVersions st lid ++
      [(⟨st.nextId, lid, h, r, st.clock⟩ : Version)]).map (·.id)).Nodup := by
  have hsub : ((layoutVersions st lid).map (·.id)).Nodup :=
    List.Nodup.sublist (List.Sublist.map _ (List.filter_sublist _)) hnd
  rw [List.map_append, List.nodup_append]
  refine ⟨hsub, List.nodup_singleton _, ?_⟩
  intro a ha hb
  simp only [List.map_cons, List.map_nil, List.mem_singleton] at hb
  obtain ⟨v, hv, hva⟩ := List.mem_map.mp ha
  have hvmem : v ∈ st.versions := (List.mem_filter.mp hv).1
  have := hfresh v hvmem
  omega

/-- In a list of versions with pairwise-distinct ids, filtering out the ids
of everything beyond the first 4 keeps exactly the first 4. -/
theorem filter_keep_newest (S : List Version) (hnd : (S.map (·.id)).Nodup) :
    S.filter (fun v => !((S.drop 4).map (·.id)).contains v.id) = S.take 4 := by
  have htake : (S.take 4).filter
      (fun v => !((S.drop 4).map (·.id)).contains v.id) = S.take 4 := by
    rw [List.filter_eq_self]
    intro v hv
    rw [Bool.not_eq_eq_eq_not, Bool.not_true]
    by_contra hcon
    rw [Bool.not_eq_false] at hcon
    have hmem : v.id ∈ (S.drop 4).map (·.id) := by
      have h2 : List.elem v.id ((S.drop 4).map (·.id)) = true := hcon
      exact List.elem_iff.mp h2
    have hmem2 : v.id ∈ (S.take 4).map (·.id) := List.mem_map_of_mem _ hv
    have hnd2 : ((S.take 4).map (·.id) ++ (S.drop 4).map (·.id)).Nodup := by
      rw [← List.map_append, List.take_append_drop]
      exact hnd
    exact (List.nodup_append.mp hnd2).2.2 hmem2 hmem
  have hdrop : (S.drop 4).filter
      (fun v => !((S.drop 4).map (·.id)).contains v.id) = [] := by
    rw [List.filter_eq_nil_iff]
    intro v hv
    rw [Bool.not_eq_eq_eq_not, Bool.not_true, Bool.not_eq_false]
    exact List.elem_iff.mpr (List.mem_map_of_mem _ hv)
  conv_lhs =>
    arg 2
    rw [← List.take_append_drop 4 S]
  rw [List.filter_append, htake, hdrop, List.append_nil]

theorem envOk_deleteOk : envOk.deleteOk = true := rfl

/-- Core counting law of the snapshot manager: inserting a snapshot and
pruning to the newest 4 yields `min (previous count + 1) 4` retained rows. -/
theorem snapshot_count (st : DB) (lid : Nat) (h r : String)
    (hnd : (st.versions.map (·.id)).Nodup)
    (hfresh : ∀ v ∈ st.versions, v.id < st.nextId) :
    countV (snapshot_previous envOk st lid h r).2 lid
      = min (countV st lid + 1) 4 := by
  have hF : layoutVersions
      ({ st with versions := st.versions ++ [⟨st.nextId, lid, h, r, st.clock⟩],
                 nextId := st.nextId + 1, clock := st.clock + 1 } : DB) lid
      = layoutVersions st lid ++ [⟨st.nextId, lid, h, r, st.clock⟩] :=
    layoutVersions_insert_self st lid _ rfl
  have hlenS : (sortByCreatedDesc (layoutVersions st lid ++
      [⟨st.nextId, lid, h, r, st.clock⟩])).length = countV st lid + 1 := by
    rw [sortByCreatedDesc_length, List.length_append]
    rfl
  by_cases hle : countV st lid + 1 ≤ 4
  · -- few versions: nothing is pruned
    have hdrop : (sortByCreatedDesc (layoutVersions st lid ++
        [⟨st.nextId, lid, h, r, st.clock⟩])).drop 4 = [] :=
      List.drop_eq_nil_of_le (by rw [hlenS]; omega)
    simp only [snapshot_previous, hF, hdrop, List.map_nil, List.isEmpty_nil,
      if_true]
    have hcv : countV ({ st with
        versions := st.versions ++ [⟨st.nextId, lid, h, r, st.clock⟩],
        nextId := st.nextId + 1, clock := st.clock + 1 } : DB) lid
        = countV st lid + 1 := by
      show (layoutVersions _ lid).length = _
      rw [hF, List.length_append]
      rfl
    rw [hcv]
    omega
  · -- more than 4 would remain: the oldest are deleted, exactly 4 remain
    have hperm : (sortByCreatedDesc (layoutVersions st lid ++
        [⟨st.nextId, lid, h, r, st.clock⟩])).Perm
        (layoutVersions st lid ++ [⟨st.nextId, lid, h, r, st.clock⟩]) :=
      sortByCreatedDesc_perm _
    have hndS : ((sortByCreatedDesc (layoutVersions st lid ++
        [⟨st.nextId, lid, h, r, st.clock⟩])).map (·.id)).Nodup :=
      ((hperm.map (·.id)).nodup_iff).mpr
        (ids_nodup_filter_append_fresh st lid h r hnd hfresh)
    have hkeep := filter_keep_newest _ hndS
    have hne : (((sortByCreatedDesc (layoutVersions st lid ++
        [⟨st.nextId, lid, h, r, st.clock⟩])).drop 4).map (·.id)).isEmpty
        = false := by
      rw [List.isEmpty_eq_false_iff_exists_mem]
      have hpos : 0 < ((sortByCreatedDesc (layoutVersions st lid ++
          [⟨st.nextId, lid, h, r, st.clock⟩])).drop 4).length := by
        rw [List.length_drop, hlenS]
        omega
      rcases hd : (sortByCreatedDesc (layoutVersions st lid ++
          [⟨st.nextId, lid, h, r, st.clock⟩])).drop 4 with _ | ⟨w, ws⟩
      · rw [hd] at hpos; simp at hpos
      · exact ⟨w.id, by rw [hd]; simp⟩
    simp only [snapshot_previous, hF, hne, Bool.false_eq_true, if_false,
      envOk_deleteOk, if_true]
    show (List.filter (fun v => v.layoutId == lid)
        (List.filter (fun v => !(((sortByCreatedDesc (layoutVersions st lid ++
          [⟨st.nextId, lid, h, r, st.clock⟩])).drop 4).map (·.id)).contains v.id)
          (st.versions ++ [⟨st.nextId, lid, h, r, st.clock⟩]))).length = _
    have hswap : List.filter (fun v => v.layoutId == lid)
        (List.filter (fun v => !(((sortByCreatedDesc (layoutVersions st lid ++
          [⟨st.nextId, lid, h, r, st.clock⟩])).drop 4).map (·.id)).contains v.id)
          (st.versions ++ [⟨st.nextId, lid, h, r, st.clock⟩]))
        = List.filter (fun v => !(((sortByCreatedDesc (layoutVersions st lid ++
          [⟨st.nextId, lid, h, r, st.clock⟩])).drop 4).map (·.id)).contains v.id)
          (List.filter (fun v => v.layoutId == lid)
            (st.versions ++ [⟨st.nextId, lid, h, r, st.clock⟩])) := by
      rw [List.filter_filter, List.filter_filter]
      apply List.filter_congr
      intro v _
      rw [Bool.and_comm]
    rw [hswap]
    have hFv : List.filter (fun v => v.layoutId == lid)
        (st.versions ++ [⟨st.nextId, lid, h, r, st.clock⟩])
        = layoutVersions st lid ++ [⟨st.nextId, lid, h, r, st.clock⟩] :=
      layoutVersions_insert_self st lid _ rfl
    rw [hFv, ← (hperm.filter _).length_eq, hkeep, List.length_take, hlenS]
    omega

theorem snapshot_previous_nextId (env : Env) (st : DB) (lid : Nat)
    (h r : String) :
    (snapshot_previous env st lid h r).2.nextId = st.nextId + 1 := by
  simp only [snapshot_previous]
  split
  · rfl
  · split <;> rfl

theorem snapshot_previous_versions_sublist (env : Env) (st : DB) (lid : Nat)
    (h r : String) :
    (snapshot_previous env st lid h r).2.versions.Sublist
      (st.versions ++ [(⟨st.nextId, lid, h, r, st.clock⟩ : Version)]) := by
  simp only [snapshot_previous]
  split
  · exact List.Sublist.refl _
  · split
    · exact List.filter_sublist _
    · exact List.Sublist.refl _

theorem snapshot_previous_wf (env : Env) (st : DB) (lid : Nat) (h r : String)
    (hwf : st.wf) (hlid : lid ≤ st.nextId) :
    (snapshot_previous env st lid h r).2.wf := by
  obtain ⟨h1, h2, h3, h4⟩ := hwf
  have hsub := snapshot_previous_versions_sublist env st lid h r
  have hnext := snapshot_previous_nextId env st lid h r
  have hlay := snapshot_previous_layouts env st lid h r
  refine ⟨?_, ?_, ?_, ?_⟩
  · refine List.Nodup.sublist (List.Sublist.map _ hsub) ?_
    rw [List.map_append, List.nodup_append]
    refine ⟨h1, List.nodup_singleton _, ?_⟩
    intro a ha hb
    simp only [List.map_cons, List.map_nil, List.mem_singleton] at hb
    obtain ⟨v, hv, hva⟩ := List.mem_map.mp ha
    have := h2 v hv
    omega
  · intro v hv
    rw [hnext]
    rcases List.mem_append.mp (hsub.subset hv) with hv' | hv'
    · have := h2 v hv'; omega
    · simp only [List.mem_singleton] at hv'
      subst hv'
      show st.nextId < st.nextId + 1
      omega
  · intro v hv
    rw [hnext]
    rcases List.mem_append.mp (hsub.subset hv) with hv' | hv'
    · have := h3 v hv'; omega
    · simp only [List.mem_singleton] at hv'
      subst hv'
      show lid < st.nextId + 1
      omega
  · intro l hl
    rw [hlay] at hl
    rw [hnext]
    have := h4 l hl
    omega

theorem updateOneLayout_map_id (lid : Nat) (f : Layout → Layout)
    (hf : ∀ l, (f l).id = l.id) (ls : List Layout) :
    (updateOneLayout lid f ls).map (·.id) = ls.map (·.id) := by
  induction ls with
  | nil => rfl
  | cons l ls ih =>
    by_cases hl : (l.id == lid) = true
    · simp [updateOneLayout, hl, hf]
    · simp [updateOneLayout, hl, ih]

/-- One successful mutating operation (update or restore) grows the retained
version count by the `min (· + 1) 4` law and preserves store
well-formedness and layout existence. -/
theorem runOp_ok_step (lid : Nat) (op : Op) (st : DB)
    (hwf : st.wf) (hlid : lid ∈ st.layouts.map (·.id))
    (hok : (runOp envOk lid op st).1.isOk = true) :
    countV (runOp envOk lid op st).2 lid = min (countV st lid + 1) 4 ∧
    (runOp envOk lid op st).2.wf ∧
    lid ∈ (runOp envOk lid op st).2.layouts.map (·.id) := by
  obtain ⟨l0, hl0, hl0id⟩ := List.mem_map.mp hlid
  have hlidlt : lid ≤ st.nextId := by
    have := hwf.2.2.2 l0 hl0
    omega
  cases op with
  | update req =>
    rcases hfind : findLayout st lid with _ | cur
    · simp only [runOp, update_layout, hfind] at hok
      simp [Except.isOk, Except.toBool] at hok
    · rcases hs : snapshot_previous envOk st lid cur.innerHTML
        (if req.reason == "" then "manual_update" else req.reason) with ⟨sres, st1⟩
      have hcnt : countV st1 lid = min (countV st lid + 1) 4 := by
        have := snapshot_count st lid cur.innerHTML
          (if req.reason == "" then "manual_update" else req.reason)
          hwf.1 hwf.2.1
        rwa [hs] at this
      have hwf1 : st1.wf := by
        have := snapshot_previous_wf envOk st lid cur.innerHTML
          (if req.reason == "" then "manual_update" else req.reason) hwf hlidlt
        rwa [hs] at this
      have hlay1 : st1.layouts = st.layouts := by
        have := snapshot_previous_layouts envOk st lid cur.innerHTML
          (if req.reason == "" then "manual_update" else req.reason)
        rwa [hs] at this
      cases sres with
      | error e =>
        simp only [runOp, update_layout, hfind, hs] at hok
        simp [Except.isOk, Except.toBool] at hok
      | ok u =>
        have hids : (updateOneLayout lid (fun l =>
            { l with innerHTML := req.innerHTML,
                     theme := if req.theme.isSome then req.theme else l.theme,
                     updatedAt := st1.clock }) st1.layouts).map (·.id)
            = st1.layouts.map (·.id) :=
          updateOneLayout_map_id lid (fun l =>
            { l with innerHTML := req.innerHTML,
                     theme := if req.theme.isSome then req.theme else l.theme,
                     updatedAt := st1.clock }) (fun l => rfl) st1.layouts
        simp only [runOp, update_layout, hfind, hs]
        obtain ⟨w1, w2, w3, w4⟩ := hwf1
        refine ⟨?_, ⟨?_, ?_, ?_, ?_⟩, ?_⟩
        · exact hcnt
        · exact w1
        · exact w2
        · exact w3
        · intro l hl
          have hmm : l.id ∈ (updateOneLayout lid (fun l =>
              { l with innerHTML := req.innerHTML,
                       theme := if req.theme.isSome then req.theme else l.theme,
                       updatedAt := st1.clock }) st1.layouts).map (·.id) :=
            List.mem_map_of_mem _ hl
          rw [hids] at hmm
          obtain ⟨l2, hl2, hl2id⟩ := List.mem_map.mp hmm
          have := w4 l2 hl2
          show l.id < st1.nextId
          omega
        · show lid ∈ (updateOneLayout lid (fun l =>
            { l with innerHTML := req.innerHTML,
                     theme := if req.theme.isSome then req.theme else l.theme,
                     updatedAt := st1.clock }) st1.layouts).map (·.id)
          rw [hids, hlay1]
          exact hlid
  | restore vid =>
    rcases hfind : findLayout st lid with _ | cur
    · simp only [runOp, restore_version, hfind] at hok
      simp [Except.isOk, Except.toBool] at hok
    · rcases hver : st.versions.find? (fun v => v.id == vid && v.layoutId == lid)
        with _ | version
      · simp only [runOp, restore_version, hfind, hver] at hok
        simp [Except.isOk, Except.toBool] at hok
      · rcases hs : snapshot_previous envOk st lid cur.innerHTML
          "restore_snapshot" with ⟨sres, st1⟩
        have hcnt : countV st1 lid = min (countV st lid + 1) 4 := by
          have := snapshot_count st lid cur.innerHTML "restore_snapshot"
            hwf.1 hwf.2.1
          rwa [hs] at this
        have hwf1 : st1.wf := by
          have := snapshot_previous_wf envOk st lid cur.innerHTML
            "restore_snapshot" hwf hlidlt
          rwa [hs] at this
        have hlay1 : st1.layouts = st.layouts := by
          have := snapshot_previous_layouts envOk st lid cur.innerHTML
            "restore_snapshot"
          rwa [hs] at this
        cases sres with
        | error e =>
          simp only [runOp, restore_version, hfind, hver, hs] at hok
          simp [Except.isOk, Except.toBool] at hok
        | ok u =>
          have hids : (updateOneLayout lid (fun l =>
              { l with innerHTML := version.innerHTML,
                       updatedAt := st1.clock }) st1.layouts).map (·.id)
              = st1.layouts.map (·.id) :=
            updateOneLayout_map_id lid (fun l =>
              { l with innerHTML := version.innerHTML,
                       updatedAt := st1.clock }) (fun l => rfl) st1.layouts
          simp only [runOp, restore_version, hfind, hver, hs]
          obtain ⟨w1, w2, w3, w4⟩ := hwf1
          refine ⟨?_, ⟨?_, ?_, ?_, ?_⟩, ?_⟩
          · exact hcnt
          · exact w1
          · exact w2
          · exact w3
          · intro l hl
            have hmm : l.id ∈ (updateOneLayout lid (fun l =>
                { l with innerHTML := version.innerHTML,
                         updatedAt := st1.clock }) st1.layouts).map (·.id) :=
              List.mem_map_of_mem _ hl
            rw [hids] at hmm
            obtain ⟨l2, hl2, hl2id⟩ := List.mem_map.mp hmm
            have := w4 l2 hl2
            show l.id < st1.nextId
            omega
          · show lid ∈ (updateOneLayout lid (fun l =>
              { l with innerHTML := version.innerHTML,
                       updatedAt := st1.clock }) st1.layouts).map (·.id)
            rw [hids, hlay1]
            exact hlid

/-- Running a sequence of successful operations applies the
`min (· + 1) 4` law once per operation. -/
theorem runOps_count (lid : Nat) (ops : List Op) : ∀ st : DB, st.wf →
    lid ∈ st.layouts.map (·.id) → countV st lid ≤ 4 →
    (runOps envOk lid ops st).1 = true →
    countV (runOps envOk lid ops st).2 lid
      = min (countV st lid + ops.length) 4 := by
  induction ops with
  | nil =>
    intro st _ _ hc _
    simp only [runOps, List.length_nil]
    omega
  | cons op ops ih =>
    intro st hwf hlid hc hrun
    rcases hr : runOp envOk lid op st with ⟨res, st1⟩
    cases res with
    | error e =>
      simp only [runOps, hr] at hrun
      exact absurd hrun (by simp)
    | ok out =>
      have hok : (runOp envOk lid op st).1.isOk = true := by rw [hr]; rfl
      obtain ⟨hcnt, hwf1, hlid1⟩ := runOp_ok_step lid op st hwf hlid hok
      simp only [hr] at hcnt hwf1 hlid1
      simp only [runOps, hr] at hrun ⊢
      have hind := ih st1 hwf1 hlid1 (by rw [hcnt]; omega) hrun
      rw [hind, hcnt, List.length_cons]
      omega

/-- The store state inside `create_layout` right after the layout insert and
before the `initial_create` snapshot (main.py 238-246). -/
def createIntermediate (st0 : DB) (req : CreateLayoutRequest) : DB :=
  { st0 with
    layouts := st0.layouts ++
      [⟨st0.nextId, req.innerHTML, req.theme, st0.clock, st0.clock⟩],
    nextId := st0.nextId + 1,
    clock := st0.clock + 1 }

/-- C1: starting from `create` (which writes the `initial_create` snapshot)
and running N further successful update/restore operations on that layout,
the retained version count equals `min (N+1) 4`; in particular
`snapshot_previous` keeps it bounded by K = 4 throughout. -/
theorem version_retention_law (st0 : DB) (req : CreateLayoutRequest)
    (ops : List Op)
    (hwf : st0.wf)
    (hrun : (runOps envOk st0.nextId ops
      (create_layout envOk req st0).2).1 = true) :
    countV (runOps envOk st0.nextId ops
      (create_layout envOk req st0).2).2 st0.nextId
      = min (ops.length + 1) 4 := by
  obtain ⟨h1, h2, h3, h4⟩ := hwf
  have hsnd : (create_layout envOk req st0).2 =
      (snapshot_previous envOk (createIntermediate st0 req)
        st0.nextId req.innerHTML "initial_create").2 := by
    show (match snapshot_previous envOk (createIntermediate st0 req)
        st0.nextId req.innerHTML "initial_create" with
      | (.error e, st2) => ((.error e : Except HErr LayoutOut), st2)
      | (.ok _, st2) =>
        ((.ok ⟨st0.nextId, req.innerHTML, req.theme, st0.clock⟩ :
          Except HErr LayoutOut), st2)).2 = _
    rcases hsp : snapshot_previous envOk (createIntermediate st0 req)
        st0.nextId req.innerHTML "initial_create" with ⟨res, st2⟩
    cases res <;> rfl
  have hwf1 : (createIntermediate st0 req).wf := by
    refine ⟨h1, ?_, ?_, ?_⟩
    · intro v hv
      have := h2 v hv
      show v.id < st0.nextId + 1
      omega
    · intro v hv
      have := h3 v hv
      show v.layoutId < st0.nextId + 1
      omega
    · intro l hl
      rcases List.mem_append.mp hl with hl' | hl'
      · have := h4 l hl'
        show l.id < st0.nextId + 1
        omega
      · simp only [List.mem_singleton] at hl'
        subst hl'
        show st0.nextId < st0.nextId + 1
        omega
  have hc0 : countV st0 st0.nextId = 0 := by
    show (st0.versions.filter (fun v => v.layoutId == st0.nextId)).length = 0
    rw [List.filter_eq_nil_iff.mpr]
    · rfl
    · intro v hv
      have := h3 v hv
      simp only [beq_iff_eq]
      omega
  have hcsnap : countV (snapshot_previous envOk (createIntermediate st0 req)
      st0.nextId req.innerHTML "initial_create").2 st0.nextId = 1 := by
    have hk := snapshot_count (createIntermediate st0 req)
      st0.nextId req.innerHTML "initial_create" hwf1.1 hwf1.2.1
    rw [hk]
    have hc1 : countV (createIntermediate st0 req) st0.nextId = 0 := hc0
    rw [hc1]
    omega
  have hwf2 : (snapshot_previous envOk (createIntermediate st0 req)
      st0.nextId req.innerHTML "initial_create").2.wf :=
    snapshot_previous_wf envOk _ st0.nextId req.innerHTML "initial_create"
      hwf1 (by show st0.nextId ≤ st0.nextId + 1; omega)
  have hlid2 : st0.nextId ∈ (snapshot_previous envOk
      (createIntermediate st0 req)
      st0.nextId req.innerHTML "initial_create").2.layouts.map (·.id) := by
    rw [snapshot_previous_layouts]
    show st0.nextId ∈ (st0.layouts ++
      [(⟨st0.nextId, req.innerHTML, req.theme, st0.clock, st0.clock⟩ :
        Layout)]).map (·.id)
    rw [List.map_append]
    refine List.mem_append.mpr (Or.inr ?_)
    simp
  rw [hsnd] at hrun ⊢
  have hfin := runOps_count st0.nextId ops _ hwf2 hlid2 (by rw [hcsnap]; omega) hrun
  rw [hfin, hcsnap]
  omega

/-- Update operation used by the C1 witness. -/
def updOp : Op := .update ⟨"x", "r", none⟩

/-- Witness for C1: from the empty store, create followed by four updates
retains exactly `min (4+1) 4 = 4` versions. -/
theorem version_retention_law_witness :
    DB.wf DB.init ∧
    (runOps envOk DB.init.nextId [updOp, updOp, updOp, updOp]
      (create_layout envOk ⟨"C", none⟩ DB.init).2).1 = true ∧
    countV (runOps envOk DB.init.nextId [updOp, updOp, updOp, updOp]
      (create_layout envOk ⟨"C", none⟩ DB.init).2).2 DB.init.nextId
      = min ([updOp, updOp, updOp, updOp].length + 1) 4 := by
  have hwf : DB.wf DB.init :=
    ⟨List.nodup_nil, fun v hv => absurd hv (List.not_mem_nil v),
     fun v hv => absurd hv (List.not_mem_nil v),
     fun l hl => absurd hl (List.not_mem_nil l)⟩
  have hrun : (runOps envOk DB.init.nextId [updOp, updOp, updOp, updOp]
      (create_layout envOk ⟨"C", none⟩ DB.init).2).1 = true := rfl
  exact ⟨hwf, hrun,
    version_retention_law DB.init ⟨"C", none⟩ [updOp, updOp, updOp, updOp]
      hwf hrun⟩

end LayoutServer
